import Mathlib

/-!
Verification development for the deploy-ui-to-cloudflare GitHub action.

The JavaScript sources are shallowly embedded as executable Lean
definitions.  Strings are Lean `String`s (lists of characters); the
regular expressions of the sources are translated into explicit
matching functions with JS `String.prototype.match` semantics
(leftmost position first, alternatives in source order, greedy
repetition); case-insensitivity (`/i`) is the ES non-unicode
Canonicalize equivalence, which on the patterns' characters identifies
the ASCII case pairs and the two non-ASCII case pairs U+00E2/U+00C2 and
U+0153/U+0152 of the mojibake sparkles sequence.  Asynchronous I/O
(subprocess execution, HTTP requests, filesystem access) is embedded by
passing the outcome of each external call as an explicit parameter.
-/

/-- JS String.prototype.includes, i.e. substring containment. -/
def substrB (pat s : String) : Bool := decide (pat.data <:+: s.data)

/-- Characters of the regex class \s (ES WhiteSpace and LineTerminator):
tab, line feed, vertical tab, form feed, carriage return, space,
no-break space, Ogham space mark, the U+2000-200A spaces, line and
paragraph separators, narrow no-break space, medium mathematical space,
ideographic space, and the byte-order mark. -/
def isRegexSpace (c : Char) : Bool :=
  c = ' ' || c = '\t' || c = '\n' || c = '\x0b' || c = '\x0c' || c = '\r' ||
  c = '\u00a0' || c = '\u1680' || ('\u2000' ≤ c && c ≤ '\u200a') ||
  c = '\u2028' || c = '\u2029' || c = '\u202f' || c = '\u205f' ||
  c = '\u3000' || c = '\ufeff'

/-- Characters of the regex class \w, used by the word-boundary assertion \b. -/
def isWordChar (c : Char) : Bool := c.isAlphanum || c = '_'

/-- The character equivalence tested under the /i flag: ES Canonicalize
for a non-unicode ignoreCase pattern maps a character to its
String.prototype.toUpperCase image, kept only when it is a single
character and never identifying a non-ASCII character with an ASCII one.
Against the characters occurring in the source patterns this identifies
exactly the ASCII case pairs together with the two non-ASCII case pairs
of the mojibake sparkles sequence, U+00E2/U+00C2 and U+0153/U+0152: no
other Unicode character uppercases to U+00C2 or U+0152, a non-ASCII
character is never identified with an ASCII letter, and every remaining
pattern character is fixed by toUpperCase, so on every comparison the
matchers perform this Boolean agrees with the program. -/
def charEqCI (p c : Char) : Bool :=
  p.toLower == c.toLower ||
  (p == 'â' && c == 'Â') || (p == 'Â' && c == 'â') ||
  (p == 'œ' && c == 'Œ') || (p == 'Œ' && c == 'œ')

/-- Match a literal pattern case-insensitively (the /i equivalence
above) at the head of the text; returns the remaining text. -/
def matchLitCI : List Char → List Char → Option (List Char)
  | [], text => some text
  | _ :: _, [] => none
  | p :: ps, c :: cs => if charEqCI p c then matchLitCI ps cs else none

/-- Greedy \s* . -/
def dropSpaces (cs : List Char) : List Char := cs.dropWhile isRegexSpace

/-- Characters of the regex class [:\s]. -/
def isSepChar (c : Char) : Bool := c = ':' || isRegexSpace c

/-- The regex piece [:\s]+ — at least one separator character, matched
greedily (no backtracking is needed: the following character of every
pattern is a letter, which is not a separator). -/
def matchSepPlus : List Char → Option (List Char)
  | [] => none
  | c :: cs => if isSepChar c then some (cs.dropWhile isSepChar) else none

/-- Effect of the trailing \b on the greedy [^\s]+ run: the regex engine
backtracks the run until a word boundary holds, which strips exactly the
trailing non-word characters; if no word character remains, every
backtracking step fails and so does the whole attempt. -/
def trimTrailingNonWord (run : List Char) : List Char :=
  (run.reverse.dropWhile (fun c => !isWordChar c)).reverse

/-- The capture group (\bhttps?:\/\/[^\s]+\b).  The leading \b is dropped:
at every use site the preceding character is ':' or whitespace, so the
boundary before the word character 'h' always holds. -/
def matchUrlToken (cs : List Char) : Option String :=
  match matchLitCI ("http".data) cs with
  | none => none
  | some r1 =>
    let httpPart := cs.take 4
    let sStep : List Char × List Char :=
      match r1 with
      | c :: rest => if charEqCI 's' c then ([c], rest) else ([], c :: rest)
      | [] => ([], [])
    match matchLitCI ("://".data) sStep.2 with
    | none => none
    | some r3 =>
      let slashPart := sStep.2.take 3
      let run := r3.takeWhile (fun c => !isRegexSpace c)
      let kept := trimTrailingNonWord run
      if kept.isEmpty then none
      else some (String.mk (httpPart ++ sStep.1 ++ slashPart ++ kept))

/-- The literal that precedes the alias phrase in src/index.mjs line 461.
In that file the sparkles symbol is stored as the three-character sequence
U+00E2 U+0153 U+00A8, and the regex requires it verbatim. -/
def sparkles : List Char := "âœ¨".data

/-- One attempt of
aliasUrlRegex = /âœ¨\s*Deployment alias URL:\s*(\bhttps?:\/\/[^\s]+\b)/i
(src/index.mjs line 461) at the current position. -/
def tryAliasAt (cs : List Char) : Option String :=
  match matchLitCI sparkles cs with
  | none => none
  | some r1 =>
    match matchLitCI ("Deployment alias URL:".data) (dropSpaces r1) with
    | none => none
    | some r2 => matchUrlToken (dropSpaces r2)

/-- deployOutput.match(aliasUrlRegex): try the pattern at each position,
leftmost first (at the empty position the attempt fails, because the
pattern starts with a literal). -/
def scanAlias : List Char → Option String
  | [] => tryAliasAt []
  | c :: cs =>
    match tryAliasAt (c :: cs) with
    | some u => some u
    | none => scanAlias cs

/-- One alternative of the standard regex: a plain phrase, then [:\s]+,
then the URL capture. -/
def tryPhraseAt (phrase : List Char) (cs : List Char) : Option String :=
  match matchLitCI phrase cs with
  | none => none
  | some r1 =>
    match matchSepPlus r1 with
    | none => none
    | some r2 => matchUrlToken r2

/-- The last alternative of the standard regex of src/index.mjs line 465:
the sparkles sequence, \s*, the completion phrase, then [:\s]+ and the
URL capture. -/
def tryCompleteAt (cs : List Char) : Option String :=
  match matchLitCI sparkles cs with
  | none => none
  | some r1 =>
    match matchLitCI ("Deployment complete! Take a peek over at".data) (dropSpaces r1) with
    | none => none
    | some r2 =>
      match matchSepPlus r2 with
      | none => none
      | some r3 => matchUrlToken r3

/-- standardUrlRegex =
/(?:View your deployed site at|Successfully deployed to|Preview URL|âœ¨\s*Deployment complete! Take a peek over at)[:\s]+(\bhttps?:\/\/[^\s]+\b)/i
(src/index.mjs line 465), one position: alternatives in source order. -/
def tryStandardAt (cs : List Char) : Option String :=
  match tryPhraseAt ("View your deployed site at".data) cs with
  | some u => some u
  | none =>
    match tryPhraseAt ("Successfully deployed to".data) cs with
    | some u => some u
    | none =>
      match tryPhraseAt ("Preview URL".data) cs with
      | some u => some u
      | none => tryCompleteAt cs

/-- deployOutput.match(standardUrlRegex): leftmost position first. -/
def scanStandard : List Char → Option String
  | [] => tryStandardAt []
  | c :: cs =>
    match tryStandardAt (c :: cs) with
    | some u => some u
    | none => scanStandard cs

/-- The outcome of one deploy invocation: the resolved URL and whether it
was guessed rather than parsed from tool output. -/
structure DeployOutcome where
  url : String
  wasGuessed : Bool
deriving DecidableEq, Repr

/-- The deterministic fallback URL of src/index.mjs line 478. -/
def guessedUrl (branch projectName : String) : String :=
  "https://" ++ (if branch = "main" then "" else branch ++ ".")
    ++ projectName ++ ".pages.dev"

/-- The URL-extraction tail of deployToCloudflare (src/index.mjs lines
460-483): the alias matcher first, then the standard matcher, then the
deterministic guess.  The JS .trim() on the capture is a no-op because
the capture is a run of non-whitespace characters. -/
def extract (deployOutput branch projectName : String) : DeployOutcome :=
  match scanAlias deployOutput.data with
  | some u => ⟨u, false⟩
  | none =>
    match scanStandard deployOutput.data with
    | some u => ⟨u, false⟩
    | none => ⟨guessedUrl branch projectName, true⟩

/-- One remote deployment snapshot as decoded from the platform responses.
The fields cover the union used across the source variants: id, created_on
and environment (src/index.mjs cleanupDeployments), url and the branch
recorded in deployment_trigger.metadata (src/unnamed/part_000), and the
alias list (src/unnamed/part_003); a JSON field that can be absent is an
Option with none for absence. -/
structure DeploymentRecord where
  id : String
  created_on : Int
  environment : String
  url : Option String
  triggerBranch : Option String
  aliases : Option (List String)
deriving DecidableEq, Repr

/-- deployments.sort((a, b) => new Date(a.created_on) - new Date(b.created_on))
(src/index.mjs lines 181-183): ascending by creation time; JS Array.sort is
stable, as is List.mergeSort. -/
def sortedByCreated (ds : List DeploymentRecord) : List DeploymentRecord :=
  ds.mergeSort (fun a b => decide (a.created_on ≤ b.created_on))

/-- sortedDeployments.find(d => d.environment === 'production')
(src/index.mjs line 186): the first production record in ascending order,
i.e. the oldest one. -/
def productionDeployment (ds : List DeploymentRecord) : Option DeploymentRecord :=
  (sortedByCreated ds).find? (fun d => decide (d.environment = "production"))

/-- The deploymentsToDelete list of src/index.mjs lines 187-189: every
record except the found production one (compared by id), in ascending
creation order. -/
def deploymentsToDelete (ds : List DeploymentRecord) : List DeploymentRecord :=
  match productionDeployment ds with
  | some p => (sortedByCreated ds).filter (fun d => decide (d.id ≠ p.id))
  | none => sortedByCreated ds

/-- The hard-coded retention threshold of src/index.mjs line 192. -/
def deploymentsToKeep : Nat := 5

/-- JS Array.prototype.slice(0, end): a negative end index counts from
the end of the array, and the extent is clamped to the array bounds. -/
def jsSliceUpTo {α : Type} (l : List α) (e : Int) : List α :=
  l.take (if e < 0 then ((l.length : Int) + e).toNat else e.toNat)

/-- deploymentsToDelete.slice(0, deploymentsToDelete.length - deploymentsToKeep)
(src/index.mjs lines 193-196): all but the five most recent candidates
when at least five exist; with n < 5 candidates the negative end index
wraps around to n + (n - 5), so the oldest max (0, 2n - 5) candidates
are still selected (three of four, one of three, none of two or fewer). -/
def deploymentsToActuallyDelete (ds : List DeploymentRecord) : List DeploymentRecord :=
  jsSliceUpTo (deploymentsToDelete ds)
    (((deploymentsToDelete ds).length : Int) - (deploymentsToKeep : Int))

/-- branch.toLowerCase().replace(/[^a-z0-9]/g, '-') from
src/unnamed/part_000 line 417 (case mapping modelled on ASCII). -/
def normalizeBranch (branch : String) : String :=
  String.mk (branch.data.map (fun c =>
    let l := c.toLower
    if l.isLower || l.isDigit then l else '-'))

/-- The primary filter of src/unnamed/part_000 lines 406-410: exact match
on deployment_trigger.metadata.branch. -/
def exactBranchMatches (ds : List DeploymentRecord) (branch : String) : List DeploymentRecord :=
  ds.filter (fun d => decide (d.triggerBranch = some branch))

/-- The fallback filter of src/unnamed/part_000 lines 419-421: the
deployment URL (when present) contains the normalized branch. -/
def urlPatternMatches (ds : List DeploymentRecord) (branch : String) : List DeploymentRecord :=
  ds.filter (fun d =>
    match d.url with
    | some u => substrB (normalizeBranch branch) u
    | none => false)

/-- The matching chain of deleteDeploymentFromCloudflare
(src/unnamed/part_000 lines 405-431): exact branch-metadata matches, and
only when that set is empty the URL-pattern fallback.  There is no further
stage. -/
def part000MatchingDeployments (ds : List DeploymentRecord) (branch : String) : List DeploymentRecord :=
  let exact := exactBranchMatches ds branch
  if exact.isEmpty then urlPatternMatches ds branch else exact

/-- The alias-substring selection of deleteMatchingDeployments
(src/unnamed/part_003 lines 218-221): records one of whose aliases
contains the given prefix string. -/
def aliasMatchesSelection (ds : List DeploymentRecord) (pfx : String) : List DeploymentRecord :=
  ds.filter (fun d =>
    match d.aliases with
    | some al => al.any (fun a => substrB pfx a)
    | none => false)

/-- The effective create-if-missing flag of src/unnamed/part_001 line 24
(identical in src/unnamed/part_003 line 23):
core.getBooleanInput('CREATE_PROJECT_IF_MISSING') || true. -/
def createProjectIfMissing (rawInput : Bool) : Bool := rawInput || true

/-- The decision taken by the deploy flow's project check. -/
inductive DeployProjectStep where
  | proceedExisting
  | createThenDeploy
  | fatalMissing
deriving DecidableEq, Repr

/-- The CheckProject/CreateProject branch of run() in src/unnamed/part_001
lines 44-53: deploy to an existing project, create a missing one when the
flag is set, otherwise abort fatally. -/
def part001CheckProjectStep (projectExists : Bool) (rawInput : Bool) : DeployProjectStep :=
  if projectExists then .proceedExisting
  else if createProjectIfMissing rawInput then .createThenDeploy
  else .fatalMissing

/-- The outcome of one wrangler subprocess invocation: success, or failure
together with the collected stderr text and the exec error message. -/
inductive ExecOutcome where
  | success
  | failure (stderr : String) (errMsg : String)

/-- deleteFromCloudflare of src/index.mjs lines 493-517, as a function of
the subprocess outcome: stderr mentioning a missing project is treated as
success; the too-many-deployments condition and every other failure throw,
with the source's message texts. -/
def deleteFromCloudflare (o : ExecOutcome) : Except String Unit :=
  match o with
  | .success => .ok ()
  | .failure stderr errMsg =>
    if substrB "not found" stderr || substrB "does not exist" stderr then
      .ok ()
    else if substrB "too many deployments" stderr || substrB "8000076" stderr then
      .error ("Project has too many deployments to be deleted: " ++ stderr)
    else
      .error ("Failed to delete project: " ++ (if stderr = "" then errMsg else stderr))

/-- The condition checked by run()'s catch in src/index.mjs line 56. -/
def isTooManyError (msg : String) : Bool :=
  substrB "too many deployments" msg || substrB "8000076" msg

/-- The delete branch of run() in src/index.mjs lines 52-64, as a function
of the outcomes of the successive wrangler project-delete invocations.
Returns the number of whole-project deletion attempts, the number of bulk
cleanup passes, and the final result: a first failure matching the
too-many-deployments condition triggers one cleanup pass and exactly one
retry whose result is final; any other first failure propagates at once. -/
def runDeleteRetry (o1 o2 : ExecOutcome) : Nat × Nat × Except String Unit :=
  match deleteFromCloudflare o1 with
  | .ok _ => (1, 0, .ok ())
  | .error e =>
    if isTooManyError e then (2, 1, deleteFromCloudflare o2)
    else (1, 0, .error e)

/-- The outcome of one deletion fetch in the fan-out of
src/unnamed/part_000 lines 447-478. -/
inductive FetchOutcome where
  | okSuccess
  | okApiFail
  | httpFail (status : Nat) (body : String)
  | exn (msg : String)
deriving DecidableEq, Repr

/-- The per-record outcome collected by the fan-out. -/
structure DeletionAttemptResult where
  id : String
  success : Bool
deriving DecidableEq, Repr

/-- One deletion promise of src/unnamed/part_000 lines 447-478: every
failure mode (non-ok response, unsuccessful API body, thrown error) is
caught and recorded as success: false; only an ok response with a
successful body records success: true.  The promise never rejects. -/
def deletionSubtask (d : String × FetchOutcome) : DeletionAttemptResult :=
  match d.2 with
  | .okSuccess => ⟨d.1, true⟩
  | _ => ⟨d.1, false⟩

/-- Promise.allSettled over the deletion promises (src/unnamed/part_000
line 481): one result per matched record. -/
def fanOutResults (l : List (String × FetchOutcome)) : List DeletionAttemptResult :=
  l.map deletionSubtask

/-- successful = results.filter(r => fulfilled && r.value.success).length
(src/unnamed/part_000 line 484); every promise settles fulfilled. -/
def fanOutSuccessful (l : List (String × FetchOutcome)) : Nat :=
  ((fanOutResults l).filter (fun r => r.success)).length

/-- failed = matchingDeployments.length - successful
(src/unnamed/part_000 line 485). -/
def fanOutFailed (l : List (String × FetchOutcome)) : Nat :=
  l.length - fanOutSuccessful l

/-- The Delete phase of the flow: it reports the two counts and never
propagates an error (the whole fan-out lives inside try/catch blocks that
only log warnings). -/
def part000DeletePhase (l : List (String × FetchOutcome)) : Except String (Nat × Nat) :=
  .ok (fanOutSuccessful l, fanOutFailed l)

/-- Outcome of JSON.parse on a response body: the parsed value, carried
as its JSON.stringify rendering (the only use the source makes of it),
or the parse error's message. -/
inductive BodyParse where
  | parsed (rendered : String)
  | invalid (errMsg : String)

/-- An HTTP response as delivered to the end handler of
cloudflareApiRequest: the status code and the body's parse outcome. -/
structure HttpResponse where
  statusCode : Nat
  body : BodyParse

/-- The rejection message built by cloudflareApiRequest for a parsed
non-2xx response (src/unnamed/part_001 line 123); rendered stands for
JSON.stringify(parsedData). -/
def mkApiError (status : Nat) (rendered : String) : String :=
  "Cloudflare API returned " ++ toString status ++ ": " ++ rendered

/-- The end handler of cloudflareApiRequest (src/unnamed/part_001 lines
116-128): the body is JSON.parsed first — a parse failure rejects with
the parse error's message regardless of the status code; a parsed body
resolves on a 2xx status and otherwise rejects with the status-labelled
message. -/
def cloudflareApiRequest (r : HttpResponse) : Except String String :=
  match r with
  | ⟨_, .invalid e⟩ => .error ("Failed to parse Cloudflare API response: " ++ e)
  | ⟨status, .parsed rendered⟩ =>
    if 200 ≤ status ∧ status < 300 then .ok rendered
    else .error (mkApiError status rendered)

/-- The catch handler of checkProjectExists (src/unnamed/part_001 lines
156-166): a resolved request means the project exists; an error whose
message mentions 404 means it does not (returned as false, not an
error); any other error is rethrown. -/
def classifyExistence (res : Except String String) : Except String Bool :=
  match res with
  | .ok _ => .ok true
  | .error msg => if substrB "404" msg then .ok false else .error msg

/-- checkProjectExists of src/unnamed/part_001 lines 150-167. -/
def checkProjectExists (r : HttpResponse) : Except String Bool :=
  classifyExistence (cloudflareApiRequest r)

/-- The terminal state of the project-deletion flow. -/
inductive DeleteFlowResult where
  | deleted
  | nothingToDelete
deriving DecidableEq, Repr

/-- The branch run()'s delete flow takes on the existence check:
a check error propagates, an existing project is handed to the deletion
primitive whose result is final, a missing project produces the
informational "Nothing to delete" outcome and no error. -/
def afterExistenceCheck (chk : Except String Bool) (del : Except String Unit) :
    Except String DeleteFlowResult :=
  match chk with
  | .error e => .error e
  | .ok true => del.map (fun _ => .deleted)
  | .ok false => .ok .nothingToDelete

/-- The delete branch of run() in src/unnamed/part_001 lines 64-72:
check existence first, then branch; a check error reaches the top-level
catch, which fails the run. -/
def part001DeleteFlow (r : HttpResponse) (del : Except String Unit) :
    Except String DeleteFlowResult :=
  afterExistenceCheck (checkProjectExists r) del

/-- Accessibility of the artifact directory, the outcome of
fs.access(distFolder). -/
inductive FsAccess where
  | ok
  | denied

/-- The fatal message thrown by deployToCloudflare when the artifact
directory is inaccessible (src/index.mjs line 421). -/
def distFolderErrorMsg (distFolder : String) : String :=
  "Distribution folder \"" ++ distFolder ++ "\" does not exist or is not accessible"

/-- The result of the deploy step together with whether the wrangler
deploy subprocess was started. -/
structure DeployAttempt where
  result : Except String String
  wranglerInvoked : Bool

/-- deployToCloudflare of src/index.mjs lines 415-484 staged on its
external calls: the fs.access check precedes everything (an inaccessible
directory throws before wrangler is invoked); then wrangler runs (a
non-zero exit throws with the collected stderr); then the URL is
extracted from its stdout.  The custom-headers block between the two is
omitted: it only writes a sidecar file and catches its own errors, so it
affects neither the control flow nor the produced values. -/
def deployToCloudflareStaged (access : FsAccess) (distFolder : String)
    (wrangler : Except String String) (branch projectName : String) : DeployAttempt :=
  match access with
  | .denied => ⟨.error (distFolderErrorMsg distFolder), false⟩
  | .ok =>
    match wrangler with
    | .error stderr => ⟨.error ("Wrangler deployment failed: " ++ stderr), true⟩
    | .ok out => ⟨.ok (extract out branch projectName).url, true⟩

/-- A deploy-tool output tail whose alias announcement carries the
sparkles sequence required by the source regex, followed by the generic
success phrase with a different URL. -/
def aliasHitTail : String :=
  "âœ¨ Deployment alias URL: https://x.test\nSuccessfully deployed to https://y.test"

/-- Sample deployment history for the retention analysis: two
production-flagged records (id p1 the oldest, id p2 more recent) followed
by six preview records, listed in ascending creation order. -/
def retentionSample : List DeploymentRecord :=
  [⟨"p1", 1, "production", none, none, none⟩,
   ⟨"p2", 2, "production", none, none, none⟩,
   ⟨"d3", 3, "preview", none, none, none⟩,
   ⟨"d4", 4, "preview", none, none, none⟩,
   ⟨"d5", 5, "preview", none, none, none⟩,
   ⟨"d6", 6, "preview", none, none, none⟩,
   ⟨"d7", 7, "preview", none, none, none⟩,
   ⟨"d8", 8, "preview", none, none, none⟩]

/-- Seven preview records with a creation-time tie between ids b and c,
listed with b before c. -/
def tieSampleA : List DeploymentRecord :=
  [⟨"a", 1, "preview", none, none, none⟩,
   ⟨"b", 2, "preview", none, none, none⟩,
   ⟨"c", 2, "preview", none, none, none⟩,
   ⟨"d", 3, "preview", none, none, none⟩,
   ⟨"e", 4, "preview", none, none, none⟩,
   ⟨"f", 5, "preview", none, none, none⟩,
   ⟨"g", 6, "preview", none, none, none⟩]

/-- The same seven records with the tied pair swapped: c before b. -/
def tieSampleB : List DeploymentRecord :=
  [⟨"a", 1, "preview", none, none, none⟩,
   ⟨"c", 2, "preview", none, none, none⟩,
   ⟨"b", 2, "preview", none, none, none⟩,
   ⟨"d", 3, "preview", none, none, none⟩,
   ⟨"e", 4, "preview", none, none, none⟩,
   ⟨"f", 5, "preview", none, none, none⟩,
   ⟨"g", 6, "preview", none, none, none⟩]

/-- A single deployment whose branch metadata is absent, whose URL does
not mention branch pr-42, but which carries a pr-42 alias. -/
def aliasOnlySample : List DeploymentRecord :=
  [⟨"d1", 1, "preview", some "https://abc123.demo.pages.dev", none,
    some ["https://pr-42.demo.pages.dev"]⟩]

/-! ### Helper lemmas -/

theorem substrB_intro {p s : String} (h : p.data <:+: s.data) : substrB p s = true := by
  simpa [substrB] using h

theorem substrB_elim {p s : String} (h : substrB p s = true) : p.data <:+: s.data := by
  simpa [substrB] using h

theorem substrB_append_right {p s : String} (t : String) (h : substrB p s = true) :
    substrB p (s ++ t) = true := by
  apply substrB_intro
  rw [String.data_append]
  exact (substrB_elim h).trans ⟨[], t.data, by simp⟩

theorem char_toNat_ofNat {n : Nat} (h : n.isValidChar) : (Char.ofNat n).toNat = n := by
  unfold Char.ofNat
  rw [dif_pos h]
  rfl

/-- Char.toLower only moves ASCII capitals into the ASCII range, so the
only character whose toLower is U+00E2 is U+00E2 itself. -/
theorem toLower_eq_mojibake_head {c : Char} (h : c.toLower = 'â') : c = 'â' := by
  unfold Char.toLower at h
  simp only [] at h
  by_cases hcond : c.toNat ≥ 65 ∧ c.toNat ≤ 90
  · rw [if_pos hcond] at h
    exfalso
    have hval : (Char.ofNat (c.toNat + 32)).toNat = ('â' : Char).toNat := congrArg Char.toNat h
    rw [char_toNat_ofNat (by left; omega)] at hval
    have hb : ('â' : Char).toNat = 226 := by decide
    omega
  · rw [if_neg hcond] at h
    exact h

/-- A character distinct from both U+00E2 and U+00C2 fails the /i
comparison with the sparkles lead character. -/
theorem charEqCI_sparkles_head {c : Char} (h1 : c ≠ 'â') (h2 : c ≠ 'Â') :
    charEqCI 'â' c = false := by
  have h3 : ('â' : Char) ≠ c.toLower := by
    intro hh
    exact h1 (toLower_eq_mojibake_head hh.symm)
  simp [charEqCI, h2, h3]

theorem tryAliasAt_cons_ne (c : Char) (l : List Char) (h : charEqCI 'â' c = false) :
    tryAliasAt (c :: l) = none := by
  have hm : matchLitCI sparkles (c :: l) = none := by
    have hs : sparkles = 'â' :: 'œ' :: '¨' :: [] := rfl
    rw [hs, matchLitCI, h]
    rfl
  rw [tryAliasAt.eq_def, hm]

set_option maxHeartbeats 800000 in
theorem scanAlias_append_of_sparkfree :
    ∀ (pre rest : List Char), (∀ c ∈ pre, charEqCI 'â' c = false) →
      scanAlias (pre ++ rest) = scanAlias rest := by
  intro pre
  induction pre with
  | nil => intro rest _; rfl
  | cons c pre ih =>
    intro rest h
    have hnone : tryAliasAt (c :: (pre ++ rest)) = none :=
      tryAliasAt_cons_ne _ _ (h c (List.mem_cons_self c pre))
    rw [List.cons_append, scanAlias, hnone]
    exact ih rest (fun d hd => h d (List.mem_cons_of_mem c hd))

theorem mem_of_mem_jsSliceUpTo {α : Type} {a : α} {l : List α} {e : Int}
    (h : a ∈ jsSliceUpTo l e) : a ∈ l := by
  unfold jsSliceUpTo at h
  exact List.mem_of_mem_take h

/-- Two lists that are permutations of each other, both pairwise ordered
by a relation that is antisymmetric on the members of the first, are
equal.  Used to show that the stable sort ignores the input order exactly
when the sort keys are pairwise distinct. -/
theorem perm_pairwise_antisymm_eq {α : Type} {r : α → α → Prop} :
    ∀ (l₁ l₂ : List α), l₁.Perm l₂ → l₁.Pairwise r → l₂.Pairwise r →
      (∀ a ∈ l₁, ∀ b ∈ l₁, r a b → r b a → a = b) → l₁ = l₂ := by
  intro l₁
  induction l₁ with
  | nil =>
    intro l₂ hp _ _ _
    exact hp.nil_eq
  | cons a t ih =>
    intro l₂ hp hs₁ hs₂ hanti
    match l₂ with
    | [] => exact absurd hp (by simp)
    | b :: u =>
      have hab : a = b := by
        have hbmem : b ∈ a :: t := hp.mem_iff.mpr (List.mem_cons_self b u)
        rcases List.mem_cons.mp hbmem with hba | hbt
        · exact hba.symm
        · have hamem : a ∈ b :: u := hp.mem_iff.mp (List.mem_cons_self a t)
          rcases List.mem_cons.mp hamem with hab' | hau
          · exact hab'
          · have hrab : r a b := (List.pairwise_cons.mp hs₁).1 b hbt
            have hrba : r b a := (List.pairwise_cons.mp hs₂).1 a hau
            exact hanti a (List.mem_cons_self a t) b (List.mem_cons_of_mem a hbt) hrab hrba
      subst hab
      have htu : t = u :=
        ih u hp.cons_inv (List.pairwise_cons.mp hs₁).2 (List.pairwise_cons.mp hs₂).2
          (fun x hx y hy => hanti x (List.mem_cons_of_mem a hx) y (List.mem_cons_of_mem a hy))
      rw [htu]

/-! ### C1 -/

/-- C1, counterexample: an output containing the plain phrase
"Deployment alias URL: https://x.test" (without the sparkles sequence)
and "Successfully deployed to https://y.test" makes extract return
https://y.test — the alias matcher of src/index.mjs line 461 requires
the sparkles sequence before the phrase, so the generic matcher wins. -/
theorem extract_without_symbol_returns_generic :
    substrB "Deployment alias URL: https://x.test"
        "Deployment alias URL: https://x.test\nSuccessfully deployed to https://y.test" = true ∧
    substrB "Successfully deployed to https://y.test"
        "Deployment alias URL: https://x.test\nSuccessfully deployed to https://y.test" = true ∧
    extract "Deployment alias URL: https://x.test\nSuccessfully deployed to https://y.test"
        "main" "demo" = ⟨"https://y.test", false⟩ := by decide

/-- C1, amended: the alias matcher fires only when the sparkles sequence
(U+00E2 U+0153 U+00A8, as written in src/index.mjs line 461) precedes the
phrase.  When it is present, the alias matcher takes priority over the
generic "Successfully deployed to" matcher: for every preceding output
text containing neither U+00E2 nor its /i equivalent U+00C2 (the only
two characters the ignoreCase comparison identifies with the sequence's
lead character), extract returns https://x.test with wasGuessed = false
and never https://y.test. -/
theorem extract_alias_with_symbol_priority :
    ∀ (pre branch projectName : String),
      (∀ c ∈ pre.data, c ≠ 'â' ∧ c ≠ 'Â') →
      extract (pre ++ aliasHitTail) branch projectName = ⟨"https://x.test", false⟩ := by
  intro pre b p h
  have h' : ∀ c ∈ pre.data, charEqCI 'â' c = false := fun c hc =>
    charEqCI_sparkles_head (h c hc).1 (h c hc).2
  have hscan : scanAlias ((pre ++ aliasHitTail).data) = some "https://x.test" := by
    rw [String.data_append, scanAlias_append_of_sparkfree _ _ h']
    decide
  rw [extract.eq_def, hscan]

/-- C1, witness for the amended theorem at a concrete prefix. -/
theorem extract_alias_with_symbol_priority_witness :
    extract ("Build finished.\n" ++ aliasHitTail) "main" "demo" = ⟨"https://x.test", false⟩ :=
  extract_alias_with_symbol_priority "Build finished.\n" "main" "demo" (by decide)

/-! ### C10 -/

/-- C10: when neither URL matcher succeeds on the raw output, extract
falls back to the deterministically constructed URL with
wasGuessed = true; in particular branch "main" / project "demo" gives
https://demo.pages.dev and branch "feature-x" gives
https://feature-x.demo.pages.dev. -/
theorem extract_fallback_guess :
    (∀ raw branch projectName : String,
        scanAlias raw.data = none → scanStandard raw.data = none →
        extract raw branch projectName =
          ⟨"https://" ++ (if branch = "main" then "" else branch ++ ".")
            ++ projectName ++ ".pages.dev", true⟩) ∧
    extract "no url here" "main" "demo" = ⟨"https://demo.pages.dev", true⟩ ∧
    extract "no url here" "feature-x" "demo" = ⟨"https://feature-x.demo.pages.dev", true⟩ := by
  refine ⟨?_, by decide, by decide⟩
  intro raw b p ha hs
  rw [extract.eq_def, ha, hs, guessedUrl]

/-- C10, witness: the universally quantified part applied at a concrete
output that no matcher recognizes. -/
theorem extract_fallback_guess_witness :
    extract "plain output" "dev" "site" =
      ⟨"https://" ++ (if "dev" = "main" then "" else "dev" ++ ".") ++ "site" ++ ".pages.dev", true⟩ :=
  extract_fallback_guess.1 "plain output" "dev" "site" (by decide) (by decide)

/-! ### C2 -/

/-- C2, counterexample: with two production-flagged records, the cleanup
protects only the oldest one (the first found in ascending order); the
most-recent production record (id p2, the latest-created record with
environment production) lands in the delete set together with d3. -/
theorem cleanup_deletes_most_recent_production :
    deploymentsToActuallyDelete retentionSample =
      [⟨"p2", 2, "production", none, none, none⟩,
       ⟨"d3", 3, "preview", none, none, none⟩] := by
  have hs : sortedByCreated retentionSample = retentionSample :=
    List.mergeSort_of_sorted (by decide)
  have h1 : productionDeployment retentionSample =
      some ⟨"p1", 1, "production", none, none, none⟩ := by
    unfold productionDeployment
    rw [hs]
    decide
  have h2 : deploymentsToDelete retentionSample =
      [⟨"p2", 2, "production", none, none, none⟩,
       ⟨"d3", 3, "preview", none, none, none⟩,
       ⟨"d4", 4, "preview", none, none, none⟩,
       ⟨"d5", 5, "preview", none, none, none⟩,
       ⟨"d6", 6, "preview", none, none, none⟩,
       ⟨"d7", 7, "preview", none, none, none⟩,
       ⟨"d8", 8, "preview", none, none, none⟩] := by
    unfold deploymentsToDelete
    rw [h1, hs]
    decide
  unfold deploymentsToActuallyDelete
  rw [h2]
  decide

/-- C2, amended: the selection never deletes a production-flagged record
when it is the only one — with exactly one record whose environment is
production, that record is excluded from the delete set regardless of how
far outside the retention window it falls. -/
theorem cleanup_protects_unique_production :
    ∀ (ds : List DeploymentRecord) (p : DeploymentRecord),
      p ∈ ds → p.environment = "production" →
      (∀ d ∈ ds, d.environment = "production" → d = p) →
      p ∉ deploymentsToActuallyDelete ds := by
  intro ds p hmem hprod huniq hcontra
  have hperm : (sortedByCreated ds).Perm ds := List.mergeSort_perm ds _
  have hpsorted : p ∈ sortedByCreated ds := hperm.mem_iff.mpr hmem
  have hsome : (productionDeployment ds).isSome := by
    unfold productionDeployment
    rw [List.find?_isSome]
    exact ⟨p, hpsorted, by simp [hprod]⟩
  obtain ⟨q, hq⟩ := Option.isSome_iff_exists.mp hsome
  have hq' : (sortedByCreated ds).find? (fun d => decide (d.environment = "production"))
      = some q := hq
  have hqprod : q.environment = "production" := by
    have := List.find?_some hq'
    simpa using this
  have hqmem : q ∈ ds := hperm.mem_iff.mp (List.mem_of_find?_eq_some hq')
  have hqp : q = p := huniq q hqmem hqprod
  have hmemdel : p ∈ deploymentsToDelete ds := by
    unfold deploymentsToActuallyDelete at hcontra
    exact mem_of_mem_jsSliceUpTo hcontra
  rw [deploymentsToDelete.eq_def, hq] at hmemdel
  have := (List.mem_filter.mp hmemdel).2
  rw [hqp] at this
  simp at this

/-- C2, witness for the amended theorem: a two-record history whose only
production record is the oldest. -/
theorem cleanup_protects_unique_production_witness :
    (⟨"p1", 1, "production", none, none, none⟩ : DeploymentRecord) ∉
      deploymentsToActuallyDelete
        [⟨"p1", 1, "production", none, none, none⟩,
         ⟨"d2", 2, "preview", none, none, none⟩] :=
  cleanup_protects_unique_production _ _ (by decide) (by decide) (by decide)

/-! ### C3 -/

/-- C3, counterexample: on a deployment with no branch metadata and no
URL match, the locator of part_000 returns the empty set even though the
record carries an alias matching the branch-derived prefix — there is no
alias-prefix fallback stage in the chain. -/
theorem locator_no_alias_fallback :
    part000MatchingDeployments aliasOnlySample "pr-42" = [] ∧
    aliasMatchesSelection aliasOnlySample "pr-42" = aliasOnlySample := by decide

/-- C3, amended: the locator of part_000 evaluates exactly two stages in
strict priority order — the exact branch-metadata match first, and the
URL-pattern match on the normalized branch only when the exact match
yields the empty set; alias-substring selection exists only as the
separate matcher of part_003 and is never consulted by this chain. -/
theorem locator_two_stage_priority :
    ∀ (ds : List DeploymentRecord) (branch : String),
      (exactBranchMatches ds branch ≠ [] →
        part000MatchingDeployments ds branch = exactBranchMatches ds branch) ∧
      (exactBranchMatches ds branch = [] →
        part000MatchingDeployments ds branch = urlPatternMatches ds branch) := by
  intro ds branch
  constructor
  · intro h
    simp only [part000MatchingDeployments]
    rw [if_neg (by simpa [List.isEmpty_iff] using h)]
  · intro h
    simp only [part000MatchingDeployments]
    rw [if_pos (by simpa [List.isEmpty_iff] using h)]

/-- C3, witness: a record with exact branch metadata makes the first
stage win. -/
theorem locator_two_stage_priority_witness :
    part000MatchingDeployments [⟨"d2", 1, "preview", none, some "main", none⟩] "main" =
      exactBranchMatches [⟨"d2", 1, "preview", none, some "main", none⟩] "main" :=
  (locator_two_stage_priority _ "main").1 (by decide)

/-! ### C4 -/

/-- C4: the create-if-missing input is read as getBooleanInput(...) || true
(src/unnamed/part_001 line 24), which is true for every raw input value,
so the fatal project-missing branch of the deploy flow is unreachable for
every configuration; with the flag input false and the project missing,
the flow creates the project instead of aborting. -/
theorem create_if_missing_fatal_unreachable :
    part001CheckProjectStep false false = DeployProjectStep.createThenDeploy ∧
    ∀ (projectExists rawInput : Bool),
      part001CheckProjectStep projectExists rawInput ≠ DeployProjectStep.fatalMissing := by
  decide

/-! ### C5 -/

/-- C5: the delete branch of run() performs at most two whole-project
deletion attempts and at most one cleanup pass; a first failure matching
the too-many-deployments condition triggers exactly one cleanup pass and
one retry whose result is final, a first success ends after one attempt,
and any other first failure propagates after one attempt with no cleanup
and no retry. -/
theorem delete_retry_once_policy :
    ∀ (o1 o2 : ExecOutcome),
      (runDeleteRetry o1 o2).1 ≤ 2 ∧
      (runDeleteRetry o1 o2).2.1 ≤ 1 ∧
      (deleteFromCloudflare o1 = .ok () → runDeleteRetry o1 o2 = (1, 0, .ok ())) ∧
      (∀ e, deleteFromCloudflare o1 = .error e → isTooManyError e = true →
        runDeleteRetry o1 o2 = (2, 1, deleteFromCloudflare o2)) ∧
      (∀ e, deleteFromCloudflare o1 = .error e → isTooManyError e = false →
        runDeleteRetry o1 o2 = (1, 0, .error e)) := by
  intro o1 o2
  refine ⟨?_, ?_, ?_, ?_, ?_⟩
  · unfold runDeleteRetry
    cases hd : deleteFromCloudflare o1 with
    | error e => by_cases ht : isTooManyError e = true <;> simp [ht]
    | ok u => simp
  · unfold runDeleteRetry
    cases hd : deleteFromCloudflare o1 with
    | error e => by_cases ht : isTooManyError e = true <;> simp [ht]
    | ok u => simp
  · intro hok
    unfold runDeleteRetry
    rw [hok]
  · intro e hd ht
    unfold runDeleteRetry
    rw [hd]
    simp [ht]
  · intro e hd ht
    unfold runDeleteRetry
    rw [hd]
    simp [ht]

/-- C5, witness: a first attempt failing with the too-many-deployments
stderr gets exactly one cleanup pass and one retry. -/
theorem delete_retry_once_policy_witness :
    runDeleteRetry (.failure "too many deployments" "") .success =
      (2, 1, deleteFromCloudflare .success) :=
  (delete_retry_once_policy (.failure "too many deployments" "") .success).2.2.2.1
    "Project has too many deployments to be deleted: too many deployments" rfl (by decide)

/-! ### C6 -/

/-- C6: the deletion fan-out produces one individually captured outcome
per matched record, the success and failure counts always sum to the
number of matched records, the Delete phase never propagates an error,
and with five matched records of which exactly four succeed the report is
four successes and one failure. -/
theorem delete_fanout_reports :
    ∀ (l : List (String × FetchOutcome)),
      (fanOutResults l).length = l.length ∧
      fanOutSuccessful l + fanOutFailed l = l.length ∧
      part000DeletePhase l = .ok (fanOutSuccessful l, fanOutFailed l) ∧
      (l.length = 5 → fanOutSuccessful l = 4 → fanOutFailed l = 1) := by
  intro l
  have hlen : (fanOutResults l).length = l.length := by
    unfold fanOutResults
    exact List.length_map _ _
  have hle : fanOutSuccessful l ≤ l.length := by
    unfold fanOutSuccessful
    calc ((fanOutResults l).filter (fun r => r.success)).length
        ≤ (fanOutResults l).length := List.length_filter_le _ _
      _ = l.length := hlen
  have hsum : fanOutSuccessful l + fanOutFailed l = l.length := by
    unfold fanOutFailed
    omega
  refine ⟨hlen, hsum, rfl, ?_⟩
  intro h5 h4
  unfold fanOutFailed
  rw [h5, h4]

/-- C6, witness: five deployment ids where exactly the third request
fails report one failure. -/
theorem delete_fanout_reports_witness :
    fanOutFailed
        [("d1", .okSuccess), ("d2", .okSuccess), ("d3", .httpFail 500 "boom"),
         ("d4", .okSuccess), ("d5", .okSuccess)] = 1 :=
  (delete_fanout_reports _).2.2.2 (by decide) (by decide)

/-! ### C7 -/

/-- C7, counterexample: a 404 response whose body is not JSON rejects
during JSON.parse, before the status code is ever inspected, with a
message that does not carry the status; checkProjectExists rethrows it
and the delete flow fails fatally even though the platform reported
HTTP 404. -/
theorem delete_project_404_parse_failure_fatal :
    substrB "404" "Failed to parse Cloudflare API response: Unexpected token N" = false ∧
    part001DeleteFlow ⟨404, .invalid "Unexpected token N"⟩ (.ok ()) =
      .error "Failed to parse Cloudflare API response: Unexpected token N" :=
  ⟨by decide, rfl⟩

/-- C7, amended: a delete-project run against a project the API reports
as 404 with a JSON body completes successfully with the informational
nothing-to-delete outcome; a parsed non-2xx error whose message does not
mention 404 propagates as a fatal error, as does a parse failure whose
message does not mention 404 — even on a 404 response; a parsed 2xx
response proceeds to the deletion primitive.  The absence test inspects
the status code embedded in the rejection message, not the error path
generically. -/
theorem delete_project_absent_is_success :
    (∀ (rendered : String) (del : Except String Unit),
        part001DeleteFlow ⟨404, .parsed rendered⟩ del = .ok .nothingToDelete) ∧
    (∀ (status : Nat) (rendered : String) (del : Except String Unit),
        ¬(200 ≤ status ∧ status < 300) →
        substrB "404" (mkApiError status rendered) = false →
        part001DeleteFlow ⟨status, .parsed rendered⟩ del =
          .error (mkApiError status rendered)) ∧
    (∀ (e : String) (del : Except String Unit),
        substrB "404" ("Failed to parse Cloudflare API response: " ++ e) = false →
        part001DeleteFlow ⟨404, .invalid e⟩ del =
          .error ("Failed to parse Cloudflare API response: " ++ e)) ∧
    (∀ (status : Nat) (rendered : String) (del : Except String Unit),
        200 ≤ status ∧ status < 300 →
        part001DeleteFlow ⟨status, .parsed rendered⟩ del =
          del.map (fun _ => .deleted)) := by
  refine ⟨?_, ?_, ?_, ?_⟩
  · intro rendered del
    have h404 : substrB "404" (mkApiError 404 rendered) = true := by
      have h0 : substrB "404" ("Cloudflare API returned " ++ toString (404 : Nat) ++ ": ")
          = true := by decide
      have := substrB_append_right rendered h0
      unfold mkApiError
      exact this
    have hchk : checkProjectExists ⟨404, .parsed rendered⟩ = .ok false := by
      unfold checkProjectExists
      rw [show cloudflareApiRequest ⟨404, .parsed rendered⟩
            = .error (mkApiError 404 rendered) from rfl]
      simp only [classifyExistence]
      rw [if_pos h404]
    unfold part001DeleteFlow
    rw [hchk]
    rfl
  · intro status rendered del h2xx h404
    have hreq : cloudflareApiRequest ⟨status, .parsed rendered⟩
        = .error (mkApiError status rendered) := by
      simp only [cloudflareApiRequest]
      rw [if_neg h2xx]
    have hchk : checkProjectExists ⟨status, .parsed rendered⟩
        = .error (mkApiError status rendered) := by
      unfold checkProjectExists
      rw [hreq]
      simp only [classifyExistence]
      rw [if_neg (by simp [h404])]
    unfold part001DeleteFlow
    rw [hchk]
    rfl
  · intro e del h404
    have hchk : checkProjectExists ⟨404, .invalid e⟩
        = .error ("Failed to parse Cloudflare API response: " ++ e) := by
      unfold checkProjectExists
      rw [show cloudflareApiRequest ⟨404, .invalid e⟩
            = .error ("Failed to parse Cloudflare API response: " ++ e) from rfl]
      simp only [classifyExistence]
      rw [if_neg (by simp [h404])]
    unfold part001DeleteFlow
    rw [hchk]
    rfl
  · intro status rendered del h2xx
    have hreq : cloudflareApiRequest ⟨status, .parsed rendered⟩ = .ok rendered := by
      simp only [cloudflareApiRequest]
      rw [if_pos h2xx]
    unfold part001DeleteFlow checkProjectExists
    rw [hreq]
    rfl

/-- C7, witness for the amended theorem: a parsed 500 response whose
rendered body does not mention 404 is a fatal error, not absence. -/
theorem delete_project_absent_is_success_witness :
    part001DeleteFlow ⟨500, .parsed "server error"⟩ (.ok ()) =
      .error (mkApiError 500 "server error") :=
  delete_project_absent_is_success.2.1 500 "server error" (.ok ()) (by omega) (by decide)

/-! ### C8 -/

/-- C8, counterexample: two orderings of the same record set that differ
only in the relative order of two records tied on created_on produce
different delete sets — the tie is broken by input order (the sort is
stable), not by id. -/
theorem cleanup_tie_order_dependent :
    tieSampleA.Perm tieSampleB ∧
    deploymentsToActuallyDelete tieSampleA ≠ deploymentsToActuallyDelete tieSampleB := by
  have hA : sortedByCreated tieSampleA = tieSampleA := List.mergeSort_of_sorted (by decide)
  have hB : sortedByCreated tieSampleB = tieSampleB := List.mergeSort_of_sorted (by decide)
  constructor
  · decide
  · have h1 : productionDeployment tieSampleA = none := by
      unfold productionDeployment
      rw [hA]
      decide
    have h2 : productionDeployment tieSampleB = none := by
      unfold productionDeployment
      rw [hB]
      decide
    have d1 : deploymentsToDelete tieSampleA = tieSampleA := by
      unfold deploymentsToDelete
      rw [h1, hA]
    have d2 : deploymentsToDelete tieSampleB = tieSampleB := by
      unfold deploymentsToDelete
      rw [h2, hB]
    unfold deploymentsToActuallyDelete
    rw [d1, d2]
    decide

/-- C8, amended: the selection is a deterministic function of the input
sequence, and it is invariant under permutation of the input exactly when
no hidden tie-breaking is needed — for inputs whose created_on values are
pairwise distinct, any two orderings of the same records produce the same
sorted list, the same delete candidates, and the same delete set. -/
theorem cleanup_perm_invariant_distinct_times :
    ∀ (l₁ l₂ : List DeploymentRecord), l₁.Perm l₂ →
      (∀ a ∈ l₁, ∀ b ∈ l₁, a.created_on = b.created_on → a = b) →
      sortedByCreated l₁ = sortedByCreated l₂ ∧
      deploymentsToDelete l₁ = deploymentsToDelete l₂ ∧
      deploymentsToActuallyDelete l₁ = deploymentsToActuallyDelete l₂ := by
  intro l₁ l₂ hp hinj
  have hperm₁ : (sortedByCreated l₁).Perm l₁ := List.mergeSort_perm l₁ _
  have hperm₂ : (sortedByCreated l₂).Perm l₂ := List.mergeSort_perm l₂ _
  have htr : ∀ (a b c : DeploymentRecord),
      decide (a.created_on ≤ b.created_on) = true →
      decide (b.created_on ≤ c.created_on) = true →
      decide (a.created_on ≤ c.created_on) = true := by
    intro a b c h1 h2
    simp only [decide_eq_true_eq] at h1 h2 ⊢
    omega
  have htot : ∀ (a b : DeploymentRecord),
      (decide (a.created_on ≤ b.created_on) || decide (b.created_on ≤ a.created_on)) = true := by
    intro a b
    simp only [Bool.or_eq_true, decide_eq_true_eq]
    omega
  have hsorted : sortedByCreated l₁ = sortedByCreated l₂ := by
    apply perm_pairwise_antisymm_eq (sortedByCreated l₁) (sortedByCreated l₂)
    · exact (hperm₁.trans hp).trans hperm₂.symm
    · exact List.sorted_mergeSort htr htot l₁
    · exact List.sorted_mergeSort htr htot l₂
    · intro a ha b hb h1 h2
      have ha' : a ∈ l₁ := hperm₁.mem_iff.mp ha
      have hb' : b ∈ l₁ := hperm₁.mem_iff.mp hb
      apply hinj a ha' b hb'
      simp only [decide_eq_true_eq] at h1 h2
      omega
  refine ⟨hsorted, ?_, ?_⟩
  · unfold deploymentsToDelete productionDeployment
    rw [hsorted]
  · unfold deploymentsToActuallyDelete deploymentsToDelete productionDeployment
    rw [hsorted]

/-- C8, witness for the amended theorem: two orderings of two records
with distinct creation times give the same delete set. -/
theorem cleanup_perm_invariant_distinct_times_witness :
    deploymentsToActuallyDelete
        [⟨"a", 1, "preview", none, none, none⟩, ⟨"b", 2, "preview", none, none, none⟩] =
      deploymentsToActuallyDelete
        [⟨"b", 2, "preview", none, none, none⟩, ⟨"a", 1, "preview", none, none, none⟩] :=
  (cleanup_perm_invariant_distinct_times _ _ (by decide) (by decide)).2.2

/-! ### C9 -/

/-- C9: with an inaccessible artifact directory the deploy step never
starts the wrangler subprocess and fails with the fatal message that
names the directory path (the path is a substring of the message). -/
theorem inaccessible_folder_no_deploy :
    ∀ (distFolder branch projectName : String) (wrangler : Except String String),
      (deployToCloudflareStaged .denied distFolder wrangler branch projectName).wranglerInvoked
        = false ∧
      (deployToCloudflareStaged .denied distFolder wrangler branch projectName).result =
        .error (distFolderErrorMsg distFolder) ∧
      substrB distFolder (distFolderErrorMsg distFolder) = true := by
  intro f b p w
  refine ⟨rfl, rfl, substrB_intro ?_⟩
  have hd : (distFolderErrorMsg f).data =
      "Distribution folder \"".data ++ f.data
        ++ "\" does not exist or is not accessible".data := by
    unfold distFolderErrorMsg
    rw [String.data_append, String.data_append]
  rw [hd]
  exact ⟨_, _, rfl⟩
